import Mathlib

/-!
# hyperlook: poll / extract / analyse pipeline

A shallow embedding of `hyperlook.go` (functions `postQuery`,
`removeNonPrintable`, `extractLogs` and the polling goroutine of `main`)
together with the parts of the Go standard library those functions rely on
(`unicode/utf8`, a one-bracket fragment of `regexp`, `encoding/json`).

Go strings are byte sequences; they are modelled as lists of bytes.
Go results of type `(*T, error)` are modelled as `Option T × Option GoError`.
-/

namespace Hyperlook

/-! ## Strings and errors -/

/-- A byte. -/
abbrev GoByte := Fin 256

/-- A Go `string`: an arbitrary sequence of bytes (not necessarily UTF-8). -/
abbrev GoString := List GoByte

/-- Bytes of an ASCII literal (every literal of `hyperlook.go` is ASCII). -/
def lit (s : String) : GoString := s.toList.map (fun c => Fin.ofNat c.toNat)

/-- The Go `error` values that can arise in `hyperlook.go`. -/
inductive GoError where
  | regexpSyntax
  | jsonSyntax
  | jsonUnmarshalType
  | jsonUnsupported
  | badURL
  | transport
  | bodyRead
  deriving DecidableEq, Repr

/-! ## `unicode/utf8` -/

/-- The Unicode replacement character `utf8.RuneError`. -/
def RuneError : Nat := 0xFFFD

/-- The table `utf8.first` together with `utf8.acceptRanges`: for a leading
byte of a multi-byte sequence, the sequence length and the accepted range of
the second byte; `none` for the bytes that cannot start such a sequence. -/
def leadInfo (b : Nat) : Option (Nat × Nat × Nat) :=
  if 0xC2 ≤ b ∧ b ≤ 0xDF then some (2, 0x80, 0xBF)
  else if b = 0xE0 then some (3, 0xA0, 0xBF)
  else if 0xE1 ≤ b ∧ b ≤ 0xEC then some (3, 0x80, 0xBF)
  else if b = 0xED then some (3, 0x80, 0x9F)
  else if 0xEE ≤ b ∧ b ≤ 0xEF then some (3, 0x80, 0xBF)
  else if b = 0xF0 then some (4, 0x90, 0xBF)
  else if 0xF1 ≤ b ∧ b ≤ 0xF3 then some (4, 0x80, 0xBF)
  else if b = 0xF4 then some (4, 0x80, 0x8F)
  else none

/-- The function `utf8.DecodeRuneInString`: the first rune of `s` and its width
in bytes; `(RuneError, 1)` for an invalid encoding, `(RuneError, 0)` for the
empty string. -/
def DecodeRuneInString : GoString → Nat × Nat
  | [] => (RuneError, 0)
  | s0 :: rest =>
    if s0.val < 0x80 then (s0.val, 1)
    else
      match leadInfo s0.val with
      | none => (RuneError, 1)
      | some (sz, lo, hi) =>
        if rest.length + 1 < sz then (RuneError, 1)
        else
          match rest with
          | [] => (RuneError, 1)
          | s1 :: rest1 =>
            if s1.val < lo ∨ hi < s1.val then (RuneError, 1)
            else if sz ≤ 2 then (((s0.val &&& 0x1F) <<< 6) ||| (s1.val &&& 0x3F), 2)
            else
              match rest1 with
              | [] => (RuneError, 1)
              | s2 :: rest2 =>
                if s2.val < 0x80 ∨ 0xBF < s2.val then (RuneError, 1)
                else if sz ≤ 3 then
                  (((s0.val &&& 0x0F) <<< 12) ||| ((s1.val &&& 0x3F) <<< 6) ||| (s2.val &&& 0x3F), 3)
                else
                  match rest2 with
                  | [] => (RuneError, 1)
                  | s3 :: _ =>
                    if s3.val < 0x80 ∨ 0xBF < s3.val then (RuneError, 1)
                    else
                      (((s0.val &&& 0x07) <<< 18) ||| ((s1.val &&& 0x3F) <<< 12)
                        ||| ((s2.val &&& 0x3F) <<< 6) ||| (s3.val &&& 0x3F), 4)

/-! ## `regexp`, restricted to one bracket expression -/

/-- A compiled character class: a list of inclusive rune ranges. -/
abbrev CharClass := List (Nat × Nat)

/-- Whether rune `r` belongs to the class. -/
def CharClass.matchesRune (cls : CharClass) (r : Nat) : Bool :=
  cls.any (fun p => decide (p.1 ≤ r ∧ r ≤ p.2))

/-- The items of a bracket expression after the opening `[`: single literal
runes and ranges `lo-hi`, up to the closing `]`, which must end the pattern.
A range whose upper end is below its lower end is a syntax error, as is a
missing `]`.  Only ASCII items other than `\`, `[` and `]` are in the
fragment. -/
def parseClassItems : Nat → GoString → CharClass → Except GoError CharClass
  | 0, _, _ => .error .regexpSyntax
  | _ + 1, [], _ => .error .regexpSyntax
  | fuel + 1, c :: rest, acc =>
    if c.val = 0x5D then
      (if rest = [] ∧ acc ≠ [] then .ok acc else .error .regexpSyntax)
    else if c.val = 0x5C ∨ c.val = 0x5B ∨ 0x80 ≤ c.val then .error .regexpSyntax
    else
      match rest with
      | d :: hi :: rest2 =>
        if d.val = 0x2D ∧ hi.val ≠ 0x5D then
          (if hi.val = 0x5C ∨ hi.val = 0x5B ∨ 0x80 ≤ hi.val ∨ hi.val < c.val then
            .error .regexpSyntax
          else parseClassItems fuel rest2 (acc ++ [(c.val, hi.val)]))
        else parseClassItems fuel rest (acc ++ [(c.val, c.val)])
      | _ => parseClassItems fuel rest (acc ++ [(c.val, c.val)])

/-- The function `regexp.Compile` on the fragment of the syntax that consists
of exactly one bracket expression `[...]` of ASCII literals and ranges. -/
def regexpCompile (pattern : GoString) : Except GoError CharClass :=
  match pattern with
  | c :: rest =>
    if c.val = 0x5B then
      match rest with
      | n :: _ => if n.val = 0x5E then .error .regexpSyntax
                  else parseClassItems (rest.length + 1) rest []
      | [] => .error .regexpSyntax
    else .error .regexpSyntax
  | [] => .error .regexpSyntax

/-- The loop of `Regexp.ReplaceAllString(src, "")` for a one-class expression.
At a rune boundary (`pending = 0`) the next rune is decoded; when it belongs
to the class its bytes are the match and are replaced by the empty string,
otherwise they are copied.  `pending` counts the bytes of the current rune
that are still to be handled and `del` records the decision taken for it. -/
def replaceAllAux (cls : CharClass) : Nat → Bool → GoString → GoString
  | _, _, [] => []
  | 0, _, b :: rest =>
    let rw := DecodeRuneInString (b :: rest)
    if cls.matchesRune rw.1 then replaceAllAux cls (rw.2 - 1) true rest
    else b :: replaceAllAux cls (rw.2 - 1) false rest
  | k + 1, del, b :: rest =>
    if del then replaceAllAux cls k true rest
    else b :: replaceAllAux cls k false rest

/-- The call `re.ReplaceAllString(src, "")`. -/
def ReplaceAllStringEmpty (cls : CharClass) (src : GoString) : GoString :=
  replaceAllAux cls 0 false src

/-! ## `removeNonPrintable` -/

/-- The pattern literal `"[\x00\x08\x0B\x0C\x0E-\x1F]"` after the Go compiler
has resolved its escapes: the control bytes stand in the pattern themselves. -/
def nonPrintablePattern : GoString :=
  [0x5B, 0x00, 0x08, 0x0B, 0x0C, 0x0E, 0x2D, 0x1F, 0x5D]

/-- The function `removeNonPrintable` of `hyperlook.go`. -/
def removeNonPrintable (originalString : GoString) : Option GoString × Option GoError :=
  match regexpCompile nonPrintablePattern with
  | .error err => (none, some err)
  | .ok reg => (some (ReplaceAllStringEmpty reg originalString), none)

/-- The bytes the specification lists for removal:
`0x00`, `0x08`, `0x0B`, `0x0C` and `0x0E`..`0x1F`. -/
def isStripped (b : GoByte) : Bool :=
  b.val = 0x00 || b.val = 0x08 || b.val = 0x0B || b.val = 0x0C || (0x0E ≤ b.val && b.val ≤ 0x1F)

/-- The function `utf8.AppendRune` on the empty buffer: the UTF-8 encoding of a
rune; surrogates and values above `U+10FFFF` are encoded as `RuneError`. -/
def encodeRune (r : Nat) : GoString :=
  if r ≤ 0x7F then [Fin.ofNat r]
  else if r ≤ 0x7FF then [Fin.ofNat (0xC0 ||| (r >>> 6)), Fin.ofNat (0x80 ||| (r &&& 0x3F))]
  else if 0x10FFFF < r ∨ (0xD800 ≤ r ∧ r ≤ 0xDFFF) then [0xEF, 0xBF, 0xBD]
  else if r ≤ 0xFFFF then
    [Fin.ofNat (0xE0 ||| (r >>> 12)), Fin.ofNat (0x80 ||| ((r >>> 6) &&& 0x3F)),
      Fin.ofNat (0x80 ||| (r &&& 0x3F))]
  else
    [Fin.ofNat (0xF0 ||| (r >>> 18)), Fin.ofNat (0x80 ||| ((r >>> 12) &&& 0x3F)),
      Fin.ofNat (0x80 ||| ((r >>> 6) &&& 0x3F)), Fin.ofNat (0x80 ||| (r &&& 0x3F))]

/-! ## `encoding/json`: values and the scanner -/

/-- A JSON value.  A number keeps its literal text; an object keeps its
members in the order of the text, duplicates included. -/
inductive JVal where
  | null
  | bool (b : Bool)
  | num (text : GoString)
  | str (s : GoString)
  | arr (xs : List JVal)
  | obj (kvs : List (GoString × JVal))

/-- The function `isSpace` of `scanner.go`. -/
def isSpace (c : GoByte) : Bool :=
  c.val = 0x20 || c.val = 0x09 || c.val = 0x0D || c.val = 0x0A

/-- The value of a hexadecimal digit. -/
def hexVal (c : GoByte) : Option Nat :=
  if 0x30 ≤ c.val ∧ c.val ≤ 0x39 then some (c.val - 0x30)
  else if 0x61 ≤ c.val ∧ c.val ≤ 0x66 then some (c.val - 0x61 + 10)
  else if 0x41 ≤ c.val ∧ c.val ≤ 0x46 then some (c.val - 0x41 + 10)
  else none

/-- The function `getu4` of `decode.go`: the rune of a leading `\uXXXX`. -/
def getu4 : GoString → Option Nat
  | b :: u :: h1 :: h2 :: h3 :: h4 :: _ =>
    if b.val = 0x5C ∧ u.val = 0x75 then
      match hexVal h1, hexVal h2, hexVal h3, hexVal h4 with
      | some a, some b, some c, some d => some (((a * 16 + b) * 16 + c) * 16 + d)
      | _, _, _, _ => none
    else none
  | _ => none

/-- The loop of `unquoteBytes` of `decode.go` over the text between the quotes
of a string literal: escapes are resolved, surrogate pairs are combined and
invalid UTF-8 is coerced to `RuneError`. -/
def unquoteAux : Nat → GoString → Option GoString
  | 0, _ => none
  | _ + 1, [] => some []
  | fuel + 1, c :: rest =>
    if c.val = 0x5C then
      match rest with
      | [] => none
      | e :: rest2 =>
        if e.val = 0x75 then
          match getu4 (c :: rest) with
          | none => none
          | some rr =>
            let after := rest2.drop 4
            if 0xD800 ≤ rr ∧ rr < 0xE000 then
              match getu4 after with
              | some rr1 =>
                if rr < 0xDC00 ∧ 0xDC00 ≤ rr1 ∧ rr1 < 0xE000 then
                  (unquoteAux fuel (after.drop 6)).map
                    (fun t => encodeRune ((((rr - 0xD800) <<< 10) ||| (rr1 - 0xDC00)) + 0x10000) ++ t)
                else (unquoteAux fuel after).map (fun t => encodeRune RuneError ++ t)
              | none => (unquoteAux fuel after).map (fun t => encodeRune RuneError ++ t)
            else (unquoteAux fuel after).map (fun t => encodeRune rr ++ t)
        else
          let simple : Option GoByte :=
            if e.val = 0x22 ∨ e.val = 0x5C ∨ e.val = 0x2F then some e
            else if e.val = 0x62 then some 0x08
            else if e.val = 0x66 then some 0x0C
            else if e.val = 0x6E then some 0x0A
            else if e.val = 0x72 then some 0x0D
            else if e.val = 0x74 then some 0x09
            else none
          match simple with
          | none => none
          | some b => (unquoteAux fuel rest2).map (fun t => b :: t)
    else if c.val = 0x22 ∨ c.val < 0x20 then none
    else if c.val < 0x80 then (unquoteAux fuel rest).map (fun t => c :: t)
    else
      let rw := DecodeRuneInString (c :: rest)
      (unquoteAux fuel (rest.drop (rw.2 - 1))).map (fun t => encodeRune rw.1 ++ t)

/-- The function `unquote` of `decode.go`, applied to the text between the
quotes. -/
def unquote (raw : GoString) : Option GoString := unquoteAux (raw.length + 1) raw

/-- An entry of the scanner's `parseState` stack (`parseObjectKey`,
`parseObjectValue`, `parseArrayValue`), together with the members or elements
read so far.  `objectKey` and `objectColon` are the two moments of
`parseObjectKey` (before and after the key), `objectValue` and `objectNext`
those of `parseObjectValue` (before and after the value). -/
inductive Frame where
  | arrayValue (items : List JVal)
  | objectKey (kvs : List (GoString × JVal))
  | objectColon (kvs : List (GoString × JVal)) (key : GoString)
  | objectValue (kvs : List (GoString × JVal)) (key : GoString)
  | objectNext (kvs : List (GoString × JVal))

/-- The scanner's current `step` function. -/
inductive Step where
  | beginValue
  | beginValueOrEmpty
  | beginStringOrEmpty
  | beginString
  | endValue
  | endTop
  | inString
  | inStringEsc
  | inStringEscU (seen : Nat)
  | neg
  | zero
  | one
  | dot
  | dot0
  | e
  | eSign
  | e0
  | t
  | tr
  | tru
  | f
  | fa
  | fal
  | fals
  | n
  | nu
  | nul

/-- The scanner of `scanner.go`, extended with the text of the token that is
being read and with the value read at top level. -/
structure Scanner where
  step : Step
  parseState : List Frame
  tok : GoString
  top : Option JVal

/-- The scanner after `reset`. -/
def Scanner.init : Scanner := ⟨.beginValue, [], [], none⟩

/-- A complete value arrives: it becomes the top-level value, the next element
of the enclosing array or the value of the pending key of the enclosing
object; the scanner continues with `stateEndValue`. -/
def Scanner.emit (s : Scanner) (v : JVal) : Option Scanner :=
  match s.parseState with
  | [] => some ⟨.endTop, [], [], some v⟩
  | .arrayValue items :: st => some ⟨.endValue, .arrayValue (items ++ [v]) :: st, [], s.top⟩
  | .objectValue kvs key :: st => some ⟨.endValue, .objectNext (kvs ++ [(key, v)]) :: st, [], s.top⟩
  | _ => none

/-- The closing quote of a string literal: the literal is an object key when
the scanner is in `parseObjectKey`, a value otherwise. -/
def Scanner.endString (s : Scanner) : Option Scanner :=
  match unquote s.tok with
  | none => none
  | some str =>
    match s.parseState with
    | .objectKey kvs :: st => some ⟨.endValue, .objectColon kvs str :: st, [], s.top⟩
    | _ => s.emit (.str str)

/-- The function `stateEndValue`. -/
def Scanner.stateEndValue (s : Scanner) (c : GoByte) : Option Scanner :=
  match s.parseState with
  | [] => if isSpace c then some { s with step := .endTop } else none
  | fr :: st =>
    if isSpace c then some { s with step := .endValue }
    else
      match fr with
      | .objectColon kvs key =>
        if c.val = 0x3A then some ⟨.beginValue, .objectValue kvs key :: st, [], s.top⟩ else none
      | .objectNext kvs =>
        if c.val = 0x2C then some ⟨.beginString, .objectKey kvs :: st, [], s.top⟩
        else if c.val = 0x7D then Scanner.emit ⟨.endValue, st, [], s.top⟩ (.obj kvs)
        else none
      | .arrayValue items =>
        if c.val = 0x2C then some ⟨.beginValue, fr :: st, [], s.top⟩
        else if c.val = 0x5D then Scanner.emit ⟨.endValue, st, [], s.top⟩ (.arr items)
        else none
      | _ => none

/-- The end of a number literal at byte `c`: the number is complete and `c`
is handed to `stateEndValue`. -/
def Scanner.endNumber (s : Scanner) (c : GoByte) : Option Scanner :=
  match s.emit (.num s.tok) with
  | none => none
  | some s1 => s1.stateEndValue c

/-- Whether `c` is a decimal digit. -/
def isDigit (c : GoByte) : Bool := 0x30 ≤ c.val && c.val ≤ 0x39

/-- The function `stateBeginValue`. -/
def Scanner.stateBeginValue (s : Scanner) (c : GoByte) : Option Scanner :=
  if isSpace c then some { s with step := .beginValue }
  else if c.val = 0x7B then some ⟨.beginStringOrEmpty, .objectKey [] :: s.parseState, [], s.top⟩
  else if c.val = 0x5B then some ⟨.beginValueOrEmpty, .arrayValue [] :: s.parseState, [], s.top⟩
  else if c.val = 0x22 then some { s with step := .inString, tok := [] }
  else if c.val = 0x2D then some { s with step := .neg, tok := [c] }
  else if c.val = 0x30 then some { s with step := .zero, tok := [c] }
  else if c.val = 0x74 then some { s with step := .t }
  else if c.val = 0x66 then some { s with step := .f }
  else if c.val = 0x6E then some { s with step := .n }
  else if 0x31 ≤ c.val ∧ c.val ≤ 0x39 then some { s with step := .one, tok := [c] }
  else none

/-- The function `stateBeginString`. -/
def Scanner.stateBeginString (s : Scanner) (c : GoByte) : Option Scanner :=
  if isSpace c then some { s with step := .beginString }
  else if c.val = 0x22 then some { s with step := .inString, tok := [] }
  else none

/-- One call `scan.step(scan, c)`. -/
def Scanner.next (s : Scanner) (c : GoByte) : Option Scanner :=
  match s.step with
  | .beginValue => s.stateBeginValue c
  | .beginValueOrEmpty =>
    if isSpace c then some s
    else if c.val = 0x5D then s.stateEndValue c
    else s.stateBeginValue c
  | .beginStringOrEmpty =>
    if isSpace c then some s
    else if c.val = 0x7D then
      match s.parseState with
      | .objectKey kvs :: st => Scanner.stateEndValue ⟨.endValue, .objectNext kvs :: st, [], s.top⟩ c
      | _ => none
    else s.stateBeginString c
  | .beginString => s.stateBeginString c
  | .endValue => s.stateEndValue c
  | .endTop => if isSpace c then some s else none
  | .inString =>
    if c.val = 0x22 then s.endString
    else if c.val = 0x5C then some { s with step := .inStringEsc, tok := s.tok ++ [c] }
    else if c.val < 0x20 then none
    else some { s with tok := s.tok ++ [c] }
  | .inStringEsc =>
    if c.val = 0x62 ∨ c.val = 0x66 ∨ c.val = 0x6E ∨ c.val = 0x72 ∨ c.val = 0x74
        ∨ c.val = 0x5C ∨ c.val = 0x2F ∨ c.val = 0x22 then
      some { s with step := .inString, tok := s.tok ++ [c] }
    else if c.val = 0x75 then some { s with step := .inStringEscU 0, tok := s.tok ++ [c] }
    else none
  | .inStringEscU seen =>
    if (hexVal c).isSome then
      some { s with step := (if seen < 3 then .inStringEscU (seen + 1) else .inString),
                    tok := s.tok ++ [c] }
    else none
  | .neg =>
    if c.val = 0x30 then some { s with step := .zero, tok := s.tok ++ [c] }
    else if 0x31 ≤ c.val ∧ c.val ≤ 0x39 then some { s with step := .one, tok := s.tok ++ [c] }
    else none
  | .one =>
    if isDigit c then some { s with tok := s.tok ++ [c] }
    else if c.val = 0x2E then some { s with step := .dot, tok := s.tok ++ [c] }
    else if c.val = 0x65 ∨ c.val = 0x45 then some { s with step := .e, tok := s.tok ++ [c] }
    else s.endNumber c
  | .zero =>
    if c.val = 0x2E then some { s with step := .dot, tok := s.tok ++ [c] }
    else if c.val = 0x65 ∨ c.val = 0x45 then some { s with step := .e, tok := s.tok ++ [c] }
    else s.endNumber c
  | .dot =>
    if isDigit c then some { s with step := .dot0, tok := s.tok ++ [c] } else none
  | .dot0 =>
    if isDigit c then some { s with tok := s.tok ++ [c] }
    else if c.val = 0x65 ∨ c.val = 0x45 then some { s with step := .e, tok := s.tok ++ [c] }
    else s.endNumber c
  | .e =>
    if c.val = 0x2B ∨ c.val = 0x2D then some { s with step := .eSign, tok := s.tok ++ [c] }
    else if isDigit c then some { s with step := .e0, tok := s.tok ++ [c] }
    else none
  | .eSign =>
    if isDigit c then some { s with step := .e0, tok := s.tok ++ [c] } else none
  | .e0 =>
    if isDigit c then some { s with tok := s.tok ++ [c] } else s.endNumber c
  | .t => if c.val = 0x72 then some { s with step := .tr } else none
  | .tr => if c.val = 0x75 then some { s with step := .tru } else none
  | .tru => if c.val = 0x65 then s.emit (.bool true) else none
  | .f => if c.val = 0x61 then some { s with step := .fa } else none
  | .fa => if c.val = 0x6C then some { s with step := .fal } else none
  | .fal => if c.val = 0x73 then some { s with step := .fals } else none
  | .fals => if c.val = 0x65 then s.emit (.bool false) else none
  | .n => if c.val = 0x75 then some { s with step := .nu } else none
  | .nu => if c.val = 0x6C then some { s with step := .nul } else none
  | .nul => if c.val = 0x6C then s.emit .null else none

/-- The scanner fed with the bytes of `data` in order; `none` at the first
byte it rejects. -/
def Scanner.run (s : Scanner) : GoString → Option Scanner
  | [] => some s
  | c :: rest =>
    match s.next c with
    | none => none
    | some s1 => s1.run rest

/-- The method `eof`: the value at end of input, when the text is complete. -/
def Scanner.eof (s : Scanner) : Option JVal :=
  match s.step with
  | .endTop => s.top
  | _ =>
    match s.next 0x20 with
    | some s1 =>
      match s1.step with
      | .endTop => s1.top
      | _ => none
    | none => none

/-- The value of a JSON text, `none` when `checkValid` rejects the text. -/
def parseJSON (data : GoString) : Option JVal :=
  match Scanner.init.run data with
  | none => none
  | some s => s.eof

/-! ## `strconv` on JSON number literals -/

/-- The value of a string of decimal digits. -/
def digitsVal (ds : GoString) : Nat := ds.foldl (fun n d => n * 10 + (d.val - 0x30)) 0

/-- The call `strconv.ParseInt(s, 10, 64)` on a JSON number literal: an optional
minus sign followed by digits only, within the range of `int64`. -/
def parseInt64 (text : GoString) : Option Int :=
  match text with
  | [] => none
  | c :: rest =>
    if c.val = 0x2D then
      (if rest ≠ [] ∧ rest.all isDigit ∧ digitsVal rest ≤ 2 ^ 63 then
        some (-(digitsVal rest : Int)) else none)
    else
      (if text.all isDigit ∧ digitsVal text < 2 ^ 63 then some (digitsVal text : Int) else none)

/-- The call `strconv.ParseUint(s, 10, 64)` on a JSON number literal: digits
only, below `2^64`. -/
def parseUint64 (text : GoString) : Option Nat :=
  if text ≠ [] ∧ text.all isDigit ∧ digitsVal text < 2 ^ 64 then some (digitsVal text) else none

/-- A JSON number literal split into the digits of its mantissa (integer and
fraction part together) and its decimal exponent, so that the literal denotes
`±mantissa * 10 ^ exponent`. -/
def decimalOf (text : GoString) : Nat × Int :=
  let body := text.dropWhile (fun c => c.val = 0x2D)
  let mant := body.takeWhile (fun c => c.val ≠ 0x65 ∧ c.val ≠ 0x45)
  let expo := (body.dropWhile (fun c => c.val ≠ 0x65 ∧ c.val ≠ 0x45)).drop 1
  let intPart := mant.takeWhile isDigit
  let fracPart := (mant.dropWhile isDigit).drop 1
  let expDigits := expo.dropWhile (fun c => c.val = 0x2B ∨ c.val = 0x2D)
  let expVal : Int :=
    if expo.head? = some 0x2D then -(digitsVal expDigits : Int) else (digitsVal expDigits : Int)
  (digitsVal (intPart ++ fracPart), expVal - (fracPart.length : Int))

/-- Whether `strconv.ParseFloat` reports `ErrRange` for the literal: its
magnitude rounds to infinity, that is, it reaches `limit`
(`2^128 - 2^103` for `float32`, `2^1024 - 2^970` for `float64`). -/
def floatOverflows (limit : Nat) (text : GoString) : Bool :=
  let d := decimalOf text
  if 0 ≤ d.2 then decide (limit ≤ d.1 * 10 ^ d.2.toNat)
  else decide (limit * 10 ^ (-d.2).toNat ≤ d.1)

/-- The overflow threshold of `float32`. -/
def float32Limit : Nat := 2 ^ 128 - 2 ^ 103

/-- The overflow threshold of `float64`. -/
def float64Limit : Nat := 2 ^ 1024 - 2 ^ 970

/-! ## `encoding/json`: decoding into the structures of `hyperlook.go` -/

/-- A `float32` field.  The floating-point value itself is not computed: the
field records the number literal it was converted from, `0` for the zero
value. -/
abbrev GoFloat32 := GoString

/-- The case folding of `foldName` for one rune.  The only runes outside ASCII
whose fold is an ASCII letter are `U+017F` (long s) and `U+212A` (Kelvin sign);
the folds of all other runes stay outside ASCII and are not computed. -/
def foldRune (r : Nat) : Nat :=
  if 0x61 ≤ r ∧ r ≤ 0x7A then r - 0x20
  else if r = 0x17F then 0x53
  else if r = 0x212A then 0x4B
  else r

/-- The function `foldName` of `encoding/json`: a key folded so that two keys
have equal folds exactly when `bytes.EqualFold` holds of them. -/
def foldNameAux : Nat → GoString → GoString
  | _, [] => []
  | 0, b :: rest =>
    let rw := DecodeRuneInString (b :: rest)
    encodeRune (foldRune rw.1) ++ foldNameAux (rw.2 - 1) rest
  | k + 1, _ :: rest => foldNameAux k rest

/-- The function `foldName` of `encoding/json`. -/
def foldName (s : GoString) : GoString := foldNameAux 0 s

/-- The field an object key is stored into: the field whose name is the key,
otherwise the first field whose name equals the key under case folding. -/
def findField {φ : Type} (fields : List (GoString × φ)) (key : GoString) : Option φ :=
  match fields.find? (fun f => decide (f.1 = key)) with
  | some f => some f.2
  | none => (fields.find? (fun f => decide (foldName f.1 = foldName key))).map (fun f => f.2)

/-- The value stored into an `interface{}` for a JSON value: numbers become
`float64`, and a number outside the range of `float64` is reported and leaves
`nil`.  Later members of an object replace earlier ones with the same key. -/
def mapSet (m : List (GoString × JVal)) (k : GoString) (v : JVal) : List (GoString × JVal) :=
  match m with
  | [] => [(k, v)]
  | (k1, v1) :: rest => if k1 = k then (k, v) :: rest else (k1, v1) :: mapSet rest k v

mutual
/-- The functions `valueInterface`, `arrayInterface` and `objectInterface`: the
generic value and whether a conversion error was saved. -/
def toInterface : JVal → JVal × Bool
  | .num text => if floatOverflows float64Limit text then (.null, true) else (.num text, false)
  | .arr xs => let r := toInterfaceList xs; (.arr r.1, r.2)
  | .obj kvs => let r := toInterfaceMembers kvs; (.obj (r.1.foldl (fun m kv => mapSet m kv.1 kv.2) []), r.2)
  | v => (v, false)
/-- The elements of `arrayInterface`. -/
def toInterfaceList : List JVal → List JVal × Bool
  | [] => ([], false)
  | x :: xs => let r := toInterface x; let t := toInterfaceList xs; (r.1 :: t.1, r.2 || t.2)
/-- The members of `objectInterface`. -/
def toInterfaceMembers : List (GoString × JVal) → List (GoString × JVal) × Bool
  | [] => ([], false)
  | (k, x) :: xs =>
    let r := toInterface x; let t := toInterfaceMembers xs; ((k, r.1) :: t.1, r.2 || t.2)
end

/-- A JSON value stored into a `string`; the flag tells whether an
`UnmarshalTypeError` was saved. -/
def storeString (cur : GoString) : JVal → GoString × Bool
  | .str s => (s, false)
  | .null => (cur, false)
  | _ => (cur, true)

/-- A JSON value stored into a `bool`. -/
def storeBool (cur : Bool) : JVal → Bool × Bool
  | .bool b => (b, false)
  | .null => (cur, false)
  | _ => (cur, true)

/-- A JSON value stored into an `int`. -/
def storeInt (cur : Int) : JVal → Int × Bool
  | .num text =>
    match parseInt64 text with
    | some n => (n, false)
    | none => (cur, true)
  | .null => (cur, false)
  | _ => (cur, true)

/-- A JSON value stored into a `uint64`. -/
def storeUint64 (cur : Nat) : JVal → Nat × Bool
  | .num text =>
    match parseUint64 text with
    | some n => (n, false)
    | none => (cur, true)
  | .null => (cur, false)
  | _ => (cur, true)

/-- A JSON value stored into a `float32`. -/
def storeFloat32 (cur : GoFloat32) : JVal → GoFloat32 × Bool
  | .num text => if floatOverflows float32Limit text then (cur, true) else (text, false)
  | .null => (cur, false)
  | _ => (cur, true)

/-- A JSON value stored into an `interface{}`; `none` is the nil interface. -/
def storeInterface (_cur : Option JVal) : JVal → Option JVal × Bool
  | .null => (none, false)
  | v => let r := toInterface v; (some r.1, r.2)

/-- The elements of a JSON array stored into a slice: element `i` is decoded
into the element the slice already has at `i`, or into a zero value.  The
spare capacity of a slice is not modelled. -/
def storeElems {α : Type} (zero : α) (store : α → JVal → α × Bool) :
    List α → List JVal → List α × Bool
  | _, [] => ([], false)
  | [], x :: xs =>
    let r := store zero x; let t := storeElems zero store [] xs; (r.1 :: t.1, r.2 || t.2)
  | c :: cs, x :: xs =>
    let r := store c x; let t := storeElems zero store cs xs; (r.1 :: t.1, r.2 || t.2)

/-- A JSON value stored into a slice.  The nil slice and the empty slice are
both the empty list. -/
def storeSlice {α : Type} (zero : α) (store : α → JVal → α × Bool) (cur : List α) :
    JVal → List α × Bool
  | .arr xs => storeElems zero store cur xs
  | .null => ([], false)
  | _ => (cur, true)

/-- The members of a JSON object stored one after the other into a structure
by `setField`; any other JSON value but `null` is an `UnmarshalTypeError`. -/
def storeStruct {α : Type} (setField : α → GoString → JVal → α × Bool) (cur : α) :
    JVal → α × Bool
  | .obj kvs =>
    kvs.foldl (fun acc kv => let r := setField acc.1 kv.1 kv.2; (r.1, acc.2 || r.2)) (cur, false)
  | .null => (cur, false)
  | _ => (cur, true)

/-- The type `Kubernetes` of `hyperlook.go`. -/
structure Kubernetes where
  ContainerName : GoString := []
  NamespaceName : GoString := []
  PodName : GoString := []
  PodId : GoString := []
  Labels : Option JVal := none
  Host : GoString := []
  MasterURL : GoString := []
  NamespaceId : GoString := []

/-- The type `Source` of `hyperlook.go`. -/
structure Source where
  Log : GoString := []
  Stream : GoString := []
  Docker : Option JVal := none
  Kubernetes : Kubernetes := {}
  Timestamp : GoString := []
  Tag : GoString := []

/-- The type `HitContent` of `hyperlook.go`; its fields `Type` and `Sort`
are written `Type_` and `Sort_`. -/
structure HitContent where
  Index : GoString := []
  Type_ : GoString := []
  Id : GoString := []
  Score : GoFloat32 := [0x30]
  Source : Source := {}
  Sort_ : List Nat := []

/-- The type `HitBody` of `hyperlook.go`. -/
structure HitBody where
  Total : Int := 0
  MaxScore : GoFloat32 := [0x30]
  Hits : List HitContent := []

/-- The type `SearchBody` of `hyperlook.go`. -/
structure SearchBody where
  Took : Int := 0
  TimedOut : Bool := false
  Shards : Option JVal := none
  Hits : HitBody := {}

/-- The fields of `Kubernetes`. -/
inductive KubernetesField where
  | ContainerName | NamespaceName | PodName | PodId | Labels | Host | MasterURL | NamespaceId
  deriving DecidableEq

/-- The fields of `Source`. -/
inductive SourceField where
  | Log | Stream | Docker | Kubernetes | Timestamp | Tag
  deriving DecidableEq

/-- The fields of `HitContent`. -/
inductive HitContentField where
  | Index | Type_ | Id | Score | Source | Sort_
  deriving DecidableEq

/-- The fields of `HitBody`. -/
inductive HitBodyField where
  | Total | MaxScore | Hits
  deriving DecidableEq

/-- The fields of `SearchBody`. -/
inductive SearchBodyField where
  | Took | TimedOut | Shards | Hits
  deriving DecidableEq

/-- The `json` tags of `Kubernetes`. -/
def kubernetesFields : List (GoString × KubernetesField) :=
  [(lit "container_name", .ContainerName), (lit "namespace_name", .NamespaceName),
   (lit "pod_name", .PodName), (lit "pod_id", .PodId), (lit "labels", .Labels),
   (lit "host", .Host), (lit "master_url", .MasterURL), (lit "namespace_id", .NamespaceId)]

/-- The `json` tags of `Source`. -/
def sourceFields : List (GoString × SourceField) :=
  [(lit "log", .Log), (lit "stream", .Stream), (lit "docker", .Docker),
   (lit "kubernetes", .Kubernetes), (lit "@timestamp", .Timestamp), (lit "tag", .Tag)]

/-- The `json` tags of `HitContent`. -/
def hitContentFields : List (GoString × HitContentField) :=
  [(lit "_index", .Index), (lit "_type", .Type_), (lit "_id", .Id), (lit "_score", .Score),
   (lit "_source", .Source), (lit "sort", .Sort_)]

/-- The `json` tags of `HitBody`. -/
def hitBodyFields : List (GoString × HitBodyField) :=
  [(lit "total", .Total), (lit "max_score", .MaxScore), (lit "hits", .Hits)]

/-- The `json` tags of `SearchBody`. -/
def searchBodyFields : List (GoString × SearchBodyField) :=
  [(lit "took", .Took), (lit "timed_out", .TimedOut), (lit "_shards", .Shards),
   (lit "hits", .Hits)]

/-- One member of a JSON object stored into a `Kubernetes`. -/
def Kubernetes.setField (k : Kubernetes) (key : GoString) (v : JVal) : Kubernetes × Bool :=
  match findField kubernetesFields key with
  | none => (k, false)
  | some .ContainerName => let r := storeString k.ContainerName v; ({ k with ContainerName := r.1 }, r.2)
  | some .NamespaceName => let r := storeString k.NamespaceName v; ({ k with NamespaceName := r.1 }, r.2)
  | some .PodName => let r := storeString k.PodName v; ({ k with PodName := r.1 }, r.2)
  | some .PodId => let r := storeString k.PodId v; ({ k with PodId := r.1 }, r.2)
  | some .Labels => let r := storeInterface k.Labels v; ({ k with Labels := r.1 }, r.2)
  | some .Host => let r := storeString k.Host v; ({ k with Host := r.1 }, r.2)
  | some .MasterURL => let r := storeString k.MasterURL v; ({ k with MasterURL := r.1 }, r.2)
  | some .NamespaceId => let r := storeString k.NamespaceId v; ({ k with NamespaceId := r.1 }, r.2)

/-- One member of a JSON object stored into a `Source`. -/
def Source.setField (s : Source) (key : GoString) (v : JVal) : Source × Bool :=
  match findField sourceFields key with
  | none => (s, false)
  | some .Log => let r := storeString s.Log v; ({ s with Log := r.1 }, r.2)
  | some .Stream => let r := storeString s.Stream v; ({ s with Stream := r.1 }, r.2)
  | some .Docker => let r := storeInterface s.Docker v; ({ s with Docker := r.1 }, r.2)
  | some .Kubernetes =>
    let r := storeStruct Kubernetes.setField s.Kubernetes v; ({ s with Kubernetes := r.1 }, r.2)
  | some .Timestamp => let r := storeString s.Timestamp v; ({ s with Timestamp := r.1 }, r.2)
  | some .Tag => let r := storeString s.Tag v; ({ s with Tag := r.1 }, r.2)

/-- One member of a JSON object stored into a `HitContent`. -/
def HitContent.setField (h : HitContent) (key : GoString) (v : JVal) : HitContent × Bool :=
  match findField hitContentFields key with
  | none => (h, false)
  | some .Index => let r := storeString h.Index v; ({ h with Index := r.1 }, r.2)
  | some .Type_ => let r := storeString h.Type_ v; ({ h with Type_ := r.1 }, r.2)
  | some .Id => let r := storeString h.Id v; ({ h with Id := r.1 }, r.2)
  | some .Score => let r := storeFloat32 h.Score v; ({ h with Score := r.1 }, r.2)
  | some .Source => let r := storeStruct Source.setField h.Source v; ({ h with Source := r.1 }, r.2)
  | some .Sort_ => let r := storeSlice 0 storeUint64 h.Sort_ v; ({ h with Sort_ := r.1 }, r.2)

/-- One member of a JSON object stored into a `HitBody`. -/
def HitBody.setField (h : HitBody) (key : GoString) (v : JVal) : HitBody × Bool :=
  match findField hitBodyFields key with
  | none => (h, false)
  | some .Total => let r := storeInt h.Total v; ({ h with Total := r.1 }, r.2)
  | some .MaxScore => let r := storeFloat32 h.MaxScore v; ({ h with MaxScore := r.1 }, r.2)
  | some .Hits =>
    let r := storeSlice {} (storeStruct HitContent.setField) h.Hits v; ({ h with Hits := r.1 }, r.2)

/-- One member of a JSON object stored into a `SearchBody`. -/
def SearchBody.setField (b : SearchBody) (key : GoString) (v : JVal) : SearchBody × Bool :=
  match findField searchBodyFields key with
  | none => (b, false)
  | some .Took => let r := storeInt b.Took v; ({ b with Took := r.1 }, r.2)
  | some .TimedOut => let r := storeBool b.TimedOut v; ({ b with TimedOut := r.1 }, r.2)
  | some .Shards => let r := storeInterface b.Shards v; ({ b with Shards := r.1 }, r.2)
  | some .Hits => let r := storeStruct HitBody.setField b.Hits v; ({ b with Hits := r.1 }, r.2)

/-- The call `json.Unmarshal(data, &searchBody)`: a text that is not valid JSON
is a syntax error and leaves `searchBody` untouched; otherwise the value is
stored field by field, and the first type mismatch, if any, is returned once
the whole value has been stored. -/
def Unmarshal (data : GoString) (searchBody : SearchBody) : SearchBody × Option GoError :=
  match parseJSON data with
  | none => (searchBody, some .jsonSyntax)
  | some v =>
    let r := storeStruct SearchBody.setField searchBody v
    (r.1, if r.2 then some .jsonUnmarshalType else none)

/-! ## `extractLogs` -/

/-- A run-time panic of the Go program. -/
inductive GoPanic where
  | nilDereference
  deriving DecidableEq

/-- The function `extractLogs` of `hyperlook.go`.  The result of
`json.Unmarshal` is not looked at. -/
def extractLogs (searchData : GoString) :
    Except GoPanic (Option (List HitContent) × Option GoError) :=
  match removeNonPrintable searchData with
  | (_, some err) => .ok (none, some err)
  | (none, none) => .error .nilDereference
  | (some pureString, none) =>
    let searchBody := (Unmarshal pureString {}).1
    .ok (some searchBody.Hits.Hits, none)

/-! ## `encoding/json`: `Marshal` of `interface{}` values -/

/-- A Go value held in an `interface{}` on the way to `json.Marshal`: a
string, a `[]interface{}` (`nil` is the nil slice), a
`map[string]interface{}` with its entries in some order and distinct keys, or
a value of a kind `json.Marshal` has no encoding for (a channel, a function, a
complex number, a non-finite float). -/
inductive GoVal where
  | nil
  | str (s : GoString)
  | slice (xs : List GoVal)
  | map (m : List (GoString × GoVal))
  | unsupported

/-- The statement `m[k] = v` on a map. -/
def mapAssign (m : List (GoString × GoVal)) (k : GoString) (v : GoVal) :
    List (GoString × GoVal) :=
  match m with
  | [] => [(k, v)]
  | (k1, v1) :: rest => if k1 = k then (k, v) :: rest else (k1, v1) :: mapAssign rest k v

/-- The statement `m[k] = v` on a value that is a map; other values are left
alone. -/
def GoVal.set (m : GoVal) (k : GoString) (v : GoVal) : GoVal :=
  match m with
  | .map es => .map (mapAssign es k v)
  | other => other

/-- The built-in `append(s, v)` on a `[]interface{}`. -/
def GoVal.append (s : GoVal) (v : GoVal) : GoVal :=
  match s with
  | .nil => .slice [v]
  | .slice xs => .slice (xs ++ [v])
  | other => other

/-- The expression `make(map[string]interface{})`. -/
def GoVal.makeMap : GoVal := .map []

/-- The entry of a map under a key. -/
def GoVal.get (v : GoVal) (k : GoString) : Option GoVal :=
  match v with
  | .map es => (es.find? (fun e => decide (e.1 = k))).map (fun e => e.2)
  | _ => none

/-- The element of a slice at an index. -/
def GoVal.index (v : GoVal) (i : Nat) : Option GoVal :=
  match v with
  | .slice xs => xs.get? i
  | _ => none

/-- A lower-case hexadecimal digit. -/
def hexDigit (n : Nat) : GoByte :=
  if n % 16 < 10 then Fin.ofNat (0x30 + n % 16) else Fin.ofNat (0x61 + (n % 16 - 10))

/-- The table `htmlSafeSet`: the ASCII bytes a string is encoded with as they
are. -/
def htmlSafe (b : GoByte) : Bool :=
  0x20 ≤ b.val && b.val ≤ 0x7F && b.val ≠ 0x22 && b.val ≠ 0x26 && b.val ≠ 0x3C
    && b.val ≠ 0x3E && b.val ≠ 0x5C

/-- The escape of an ASCII byte outside `htmlSafeSet`. -/
def escapeByte (b : GoByte) : GoString :=
  if b.val = 0x5C ∨ b.val = 0x22 then [0x5C, b]
  else if b.val = 0x08 then [0x5C, 0x62]
  else if b.val = 0x0C then [0x5C, 0x66]
  else if b.val = 0x0A then [0x5C, 0x6E]
  else if b.val = 0x0D then [0x5C, 0x72]
  else if b.val = 0x09 then [0x5C, 0x74]
  else [0x5C, 0x75, 0x30, 0x30, hexDigit (b.val / 16), hexDigit b.val]

/-- The loop of `appendString` with HTML escaping: unsafe ASCII bytes are
escaped, an invalid UTF-8 byte becomes the six bytes `\ufffd`, `U+2028` and `U+2029` are
escaped and every other rune is copied.  `pending` counts the bytes of the
current rune still to be handled, `copy` tells whether they are copied. -/
def appendStringAux : Nat → Bool → GoString → GoString
  | _, _, [] => []
  | 0, _, b :: rest =>
    if b.val < 0x80 then
      (if htmlSafe b then [b] else escapeByte b) ++ appendStringAux 0 true rest
    else
      let rw := DecodeRuneInString (b :: rest)
      if rw.1 = RuneError ∧ rw.2 = 1 then
        [0x5C, 0x75, 0x66, 0x66, 0x66, 0x64] ++ appendStringAux 0 true rest
      else if rw.1 = 0x2028 ∨ rw.1 = 0x2029 then
        [0x5C, 0x75, 0x32, 0x30, 0x32, hexDigit rw.1] ++ appendStringAux (rw.2 - 1) false rest
      else b :: appendStringAux (rw.2 - 1) true rest
  | k + 1, copy, b :: rest =>
    if copy then b :: appendStringAux k true rest else appendStringAux k false rest

/-- The JSON string literal for a Go string. -/
def appendString (s : GoString) : GoString := [0x22] ++ appendStringAux 0 true s ++ [0x22]

/-- The order of Go strings: byte-wise lexicographic. -/
def strLt : GoString → GoString → Bool
  | [], [] => false
  | [], _ :: _ => true
  | _ :: _, [] => false
  | a :: as, b :: bs => if a.val < b.val then true else if b.val < a.val then false else strLt as bs

/-- Insertion of an encoded map entry into a list sorted by key. -/
def insertByKey (e : GoString × GoString) : List (GoString × GoString) → List (GoString × GoString)
  | [] => [e]
  | x :: xs => if strLt e.1 x.1 then e :: x :: xs else x :: insertByKey e xs

/-- The texts of a list joined with commas. -/
def joinComma : List GoString → GoString
  | [] => []
  | [x] => x
  | x :: y :: rest => x ++ [0x2C] ++ joinComma (y :: rest)

mutual
/-- The encoder of `json.Marshal`: the JSON text of a value, or the error for
a value without an encoding.  The entries of a map are written in the order of
their keys. -/
def marshalVal : GoVal → Except GoError GoString
  | .nil => .ok (lit "null")
  | .str s => .ok (appendString s)
  | .slice xs =>
    match marshalList xs with
    | .error e => .error e
    | .ok ts => .ok ([0x5B] ++ joinComma ts ++ [0x5D])
  | .map m =>
    match marshalEntries m with
    | .error e => .error e
    | .ok es =>
      .ok ([0x7B] ++ joinComma ((es.foldr insertByKey []).map
        (fun e => appendString e.1 ++ [0x3A] ++ e.2)) ++ [0x7D])
  | .unsupported => .error .jsonUnsupported
/-- The encoder on the elements of a slice. -/
def marshalList : List GoVal → Except GoError (List GoString)
  | [] => .ok []
  | x :: xs =>
    match marshalVal x, marshalList xs with
    | .ok t, .ok ts => .ok (t :: ts)
    | .error e, _ => .error e
    | _, .error e => .error e
/-- The encoder on the entries of a map. -/
def marshalEntries : List (GoString × GoVal) → Except GoError (List (GoString × GoString))
  | [] => .ok []
  | (k, x) :: xs =>
    match marshalVal x, marshalEntries xs with
    | .ok t, .ok ts => .ok ((k, t) :: ts)
    | .error e, _ => .error e
    | _, .error e => .error e
end

/-- The function `json.Marshal`. -/
def Marshal (v : GoVal) : Except GoError GoString := marshalVal v

/-! ## `postQuery` -/

/-- The constant `efkQueryString` of `postQuery`. -/
def efkQueryString : GoString :=
  lit "(\"ProcessProposal -> DEBU \" AND (Entry OR Exit)) OR NewCCCC OR generateDockerfile"

/-- Lines 61 to 90 of `postQuery`: the value `queryBody` handed to
`json.Marshal`, built by the same statements in the same order. -/
def queryBody (fabricNamespace podName : GoString) : GoVal :=
  let mustQuery := GoVal.nil
  let queryString := GoVal.makeMap.set (lit "query") (.str efkQueryString)
  let queryStringBody := GoVal.makeMap.set (lit "query_string") queryString
  let mustQuery := mustQuery.append queryStringBody
  let namespace_ := GoVal.makeMap.set (lit "query") (.str fabricNamespace)
  let matchNamespace := GoVal.makeMap.set (lit "kubernetes.namespace_name") namespace_
  let matchNamespaceBody := GoVal.makeMap.set (lit "match_phrase") matchNamespace
  let mustQuery := mustQuery.append matchNamespaceBody
  let containerName := GoVal.makeMap.set (lit "query") (.str podName)
  let matchContainerName := GoVal.makeMap.set (lit "kubernetes.container_name") containerName
  let matchContainerNameBody := GoVal.makeMap.set (lit "match_phrase_prefix") matchContainerName
  let mustQuery := mustQuery.append matchContainerNameBody
  let mustBody := GoVal.makeMap.set (lit "must") mustQuery
  let boolBody := GoVal.makeMap.set (lit "bool") mustBody
  GoVal.makeMap.set (lit "query") boolBody

/-- A request handed to `client.Do`. -/
structure Request where
  method : GoString
  url : GoString
  contentType : GoString
  body : GoString
  deriving DecidableEq

/-- What becomes of a request: a transport error, a response whose body
cannot be read to the end, or a response body. -/
inductive Exchange where
  | transportError
  | readError
  | body (text : GoString)

/-- The HTTP capability: which URLs `http.NewRequest` accepts and what the
network answers to a request. -/
structure HTTPEnv where
  validURL : GoString → Bool
  roundTrip : Request → Exchange

/-- The result of `postQuery` together with the requests it has handed to the
HTTP client. -/
structure PostResult where
  res : Option GoString
  err : Option GoError
  sent : List Request

/-- Lines 92 to 118 of `postQuery`: the document is serialised and posted. -/
def postBody (env : HTTPEnv) (url : GoString) (queryBody : GoVal) : PostResult :=
  match Marshal queryBody with
  | .error err => ⟨none, some err, []⟩
  | .ok byteData =>
    if env.validURL url then
      let req : Request := ⟨lit "POST", url, lit "application/json", byteData⟩
      match env.roundTrip req with
      | .transportError => ⟨none, some .transport, [req]⟩
      | .readError => ⟨none, some .bodyRead, [req]⟩
      | .body resString => ⟨some resString, none, [req]⟩
    else ⟨none, some .badURL, []⟩

/-- The function `postQuery` of `hyperlook.go`. -/
def postQuery (env : HTTPEnv) (url fabricNamespace podName : GoString) : PostResult :=
  postBody env url (queryBody fabricNamespace podName)

/-! ## The polling goroutine of `main` -/

/-- The flags read by the polling goroutine. -/
structure Flags where
  containerName : GoString := lit "peer"
  elaSearchAddr : GoString := lit "127.0.0.1"
  elaSearchPort : GoString := lit "9200"
  elaSearchSize : GoString := lit "200"
  fabricNamespace : GoString := lit "fabric-net"
  interval : Nat := 60

/-- Where the goroutine stands: about to call `postQuery`, about to call
`extractLogs` on the response, about to call `analysisLogs` on the hit list,
about to sleep, returned (`stopped`), or ended by a panic. -/
inductive Phase where
  | querying
  | extracting (res : GoString)
  | analyzing (logsArray : Option (List HitContent))
  | sleeping
  | stopped
  | panicked

/-- The state of the goroutine: its phase, the number of completed cycles and
the state `analysisLogs` works on. -/
structure Worker (σ : Type) where
  phase : Phase
  cycle : Nat
  metrics : σ

/-- The URL of line 159 and 161. -/
def searchURL (f : Flags) : GoString :=
  lit "http://" ++ f.elaSearchAddr ++ lit ":" ++ f.elaSearchPort
    ++ (lit "/_search?size=" ++ f.elaSearchSize ++ lit "&sort=@timestamp:desc")

/-- The call of `postQuery` in cycle `n`; `world n` is the network during that
cycle. -/
def queryOf (f : Flags) (world : Nat → HTTPEnv) (n : Nat) : PostResult :=
  postQuery (world n) (searchURL f) f.fabricNamespace f.containerName

/-- One step of the loop of lines 158 to 172.  The function `analysisLogs` is
not defined in `hyperlook.go`; it is a parameter.  A returned or panicked
goroutine has no step. -/
def Worker.step {σ : Type} (f : Flags) (world : Nat → HTTPEnv)
    (analysisLogs : σ → Option (List HitContent) → σ) (w : Worker σ) : Option (Worker σ) :=
  match w.phase with
  | .querying =>
    let r := queryOf f world w.cycle
    match r.err, r.res with
    | some _, _ => some { w with phase := .stopped }
    | none, some res => some { w with phase := .extracting res }
    | none, none => some { w with phase := .panicked }
  | .extracting res =>
    match extractLogs res with
    | .ok (logsArray, _) => some { w with phase := .analyzing logsArray }
    | .error _ => some { w with phase := .panicked }
  | .analyzing logsArray =>
    some { w with phase := .sleeping, metrics := analysisLogs w.metrics logsArray }
  | .sleeping => some { w with phase := .querying, cycle := w.cycle + 1 }
  | .stopped => none
  | .panicked => none

/-- A step into a Go value: the entry of a map or the element of a slice. -/
inductive PathElem where
  | key (k : GoString)
  | idx (i : Nat)

/-- The value reached from `v` along a path of map keys and slice indices. -/
def GoVal.path (v : GoVal) : List PathElem → Option GoVal
  | [] => some v
  | .key k :: rest =>
    match v.get k with
    | some w => w.path rest
    | none => none
  | .idx i :: rest =>
    match v.index i with
    | some w => w.path rest
    | none => none

/-- A network that accepts every URL and answers every request with an empty
body. -/
def emptyBodyEnv : HTTPEnv := ⟨fun _ => true, fun _ => .body []⟩

/-- A network on which every request fails in transport. -/
def downEnv : HTTPEnv := ⟨fun _ => true, fun _ => .transportError⟩

/-! ## Well-formed search responses -/

/-- A network that answers in cycle `0` and is down from cycle `1` on. -/
def oneCycleWorld : Nat → HTTPEnv := fun n => if n = 0 then emptyBodyEnv else downEnv

/-- An analysis stage that counts the hits it is given. -/
def countHits (total : Nat) (logsArray : Option (List HitContent)) : Nat :=
  total + (logsArray.getD []).length

/-! ## Theorems: sanitisation -/

theorem or_ge_left (a b : Nat) (h : 0x20 ≤ a) : 0x20 ≤ a ||| b := by
  obtain ⟨i, hi, hbit⟩ := Nat.ge_two_pow_implies_high_bit_true (show a ≥ 2 ^ 5 from h)
  have hor : (a ||| b).testBit i = true := by simp [hbit]
  have h1 := Nat.testBit_implies_ge hor
  have h2 : 2 ^ 5 ≤ 2 ^ i := Nat.pow_le_pow_right (by decide) hi
  exact Nat.le_trans h2 h1

theorem or_ge_right (a b : Nat) (h : 0x20 ≤ b) : 0x20 ≤ a ||| b := by
  rw [Nat.or_comm]; exact or_ge_left b a h

theorem leadInfo_spec (b : Nat) (sz lo hi : Nat) (h : leadInfo b = some (sz, lo, hi)) :
    0x80 ≤ lo ∧
    ((sz = 2 ∧ 0xC2 ≤ b ∧ b ≤ 0xDF)
      ∨ (sz = 3 ∧ ((b = 0xE0 ∧ lo = 0xA0 ∧ hi = 0xBF) ∨ (0xE1 ≤ b ∧ b ≤ 0xEF)))
      ∨ (sz = 4 ∧ ((b = 0xF0 ∧ lo = 0x90 ∧ hi = 0xBF) ∨ (0xF1 ≤ b ∧ b ≤ 0xF4)))) := by
  unfold leadInfo at h
  repeat' split at h
  all_goals simp at h
  all_goals omega

set_option maxRecDepth 100000 in
theorem lead_bits_ge : ∀ s0 : GoByte,
    ((0xC2 ≤ s0.val ∧ s0.val ≤ 0xDF) → 0x20 ≤ (s0.val &&& 0x1F) <<< 6)
    ∧ ((0xE1 ≤ s0.val ∧ s0.val ≤ 0xEF) → 0x20 ≤ (s0.val &&& 0x0F) <<< 12)
    ∧ ((0xF1 ≤ s0.val ∧ s0.val ≤ 0xF4) → 0x20 ≤ (s0.val &&& 0x07) <<< 18)
    ∧ ((0xA0 ≤ s0.val ∧ s0.val ≤ 0xBF) → 0x20 ≤ (s0.val &&& 0x3F) <<< 6)
    ∧ ((0x90 ≤ s0.val ∧ s0.val ≤ 0xBF) → 0x20 ≤ (s0.val &&& 0x3F) <<< 12) := by
  decide

/-- A rune decoded from a string that starts with a non-ASCII byte is never a
control character, and the bytes after the first that belong to it are
continuation bytes. -/
theorem decode_high (s0 : GoByte) (rest : GoString) (h : 0x80 ≤ s0.val) :
    0x20 ≤ (DecodeRuneInString (s0 :: rest)).1
    ∧ ∀ b ∈ rest.take ((DecodeRuneInString (s0 :: rest)).2 - 1), 0x80 ≤ b.val := by
  have hb := lead_bits_ge s0
  have hna : ¬ (s0.val < 0x80) := by omega
  simp only [DecodeRuneInString, if_neg hna]
  cases hinfo : leadInfo s0.val with
  | none => simp [RuneError]
  | some t =>
    obtain ⟨sz, lo, hi⟩ := t
    obtain ⟨hlo, hsz⟩ := leadInfo_spec _ _ _ _ hinfo
    simp only []
    by_cases hlen : rest.length + 1 < sz
    · simp [hlen, RuneError]
    · rw [if_neg hlen]
      cases rest with
      | nil => simp [RuneError]
      | cons s1 rest1 =>
        have hb1 := lead_bits_ge s1
        simp only []
        by_cases hs1 : s1.val < lo ∨ hi < s1.val
        · simp [hs1, RuneError]
        · rw [if_neg hs1]
          have hs1lo : 0x80 ≤ s1.val := by omega
          by_cases h2 : sz ≤ 2
          · rw [if_pos h2]
            refine ⟨or_ge_left _ _ (hb.1 (by omega)), ?_⟩
            intro b hmem
            simp at hmem
            subst hmem
            omega
          · rw [if_neg h2]
            cases rest1 with
            | nil => simp [RuneError]
            | cons s2 rest2 =>
              simp only []
              by_cases hs2 : s2.val < 0x80 ∨ 0xBF < s2.val
              · simp [hs2, RuneError]
              · rw [if_neg hs2]
                by_cases h3 : sz ≤ 3
                · rw [if_pos h3]
                  have hr12 : 0x20 ≤ (s0.val &&& 0x0F) <<< 12 ||| (s1.val &&& 0x3F) <<< 6 := by
                    rcases hsz with hc | ⟨_, hc | hc⟩ | hc
                    · omega
                    · exact or_ge_right _ _ (hb1.2.2.2.1 (by omega))
                    · exact or_ge_left _ _ (hb.2.1 hc)
                    · omega
                  refine ⟨or_ge_left _ _ hr12, ?_⟩
                  intro b hmem
                  simp at hmem
                  rcases hmem with hmem | hmem <;> subst hmem <;> omega
                · rw [if_neg h3]
                  cases rest2 with
                  | nil => simp [RuneError]
                  | cons s3 rest3 =>
                    simp only []
                    by_cases hs3 : s3.val < 0x80 ∨ 0xBF < s3.val
                    · simp [hs3, RuneError]
                    · rw [if_neg hs3]
                      have hr12 : 0x20 ≤ (s0.val &&& 0x07) <<< 18 ||| (s1.val &&& 0x3F) <<< 12 := by
                        rcases hsz with hc | hc | ⟨_, hc | hc⟩
                        · omega
                        · omega
                        · exact or_ge_right _ _ (hb1.2.2.2.2 (by omega))
                        · exact or_ge_left _ _ (hb.2.2.1 hc)
                      refine ⟨or_ge_left _ _ (or_ge_left _ _ hr12), ?_⟩
                      intro b hmem
                      simp at hmem
                      rcases hmem with hmem | hmem | hmem <;> subst hmem <;> omega

theorem decode_ascii (s0 : GoByte) (rest : GoString) (h : s0.val < 0x80) :
    DecodeRuneInString (s0 :: rest) = (s0.val, 1) := by
  simp [DecodeRuneInString, h]

/-- The class compiled from the pattern of `removeNonPrintable`. -/
theorem compile_nonPrintable :
    regexpCompile nonPrintablePattern
      = .ok [(0, 0), (8, 8), (0xB, 0xB), (0xC, 0xC), (0xE, 0x1F)] := rfl

theorem class_matches_iff (r : Nat) :
    CharClass.matchesRune [(0, 0), (8, 8), (0xB, 0xB), (0xC, 0xC), (0xE, 0x1F)] r
      = decide (r = 0 ∨ r = 8 ∨ r = 0xB ∨ r = 0xC ∨ (0xE ≤ r ∧ r ≤ 0x1F)) := by
  simp only [CharClass.matchesRune, List.any_cons, List.any_nil, Bool.or_false]
  rw [Bool.eq_iff_iff]
  simp only [Bool.or_eq_true, decide_eq_true_eq]
  omega

theorem isStripped_iff (b : GoByte) :
    isStripped b = true ↔
      (b.val = 0 ∨ b.val = 8 ∨ b.val = 0xB ∨ b.val = 0xC ∨ (0xE ≤ b.val ∧ b.val ≤ 0x1F)) := by
  simp only [isStripped, Bool.or_eq_true, Bool.and_eq_true, decide_eq_true_eq]
  omega

theorem replaceAllAux_zero_del (cls : CharClass) (del : Bool) (s : GoString) :
    replaceAllAux cls 0 del s = replaceAllAux cls 0 false s := by
  cases s <;> simp [replaceAllAux]

/-- Inside a rune that is being copied, and at every rune boundary, the
replacement loop deletes exactly the listed control bytes. -/
theorem replaceAllAux_eq_filter (s : GoString) :
    ∀ k : Nat, (∀ b ∈ s.take k, 0x80 ≤ b.val) →
      replaceAllAux [(0, 0), (8, 8), (0xB, 0xB), (0xC, 0xC), (0xE, 0x1F)] k false s
        = s.filter (fun b => !isStripped b) := by
  induction s with
  | nil => intro k _; simp [replaceAllAux]
  | cons b rest ih =>
    intro k hk
    cases k with
    | zero =>
      simp only [replaceAllAux]
      by_cases hb : b.val < 0x80
      · rw [decode_ascii b rest hb, class_matches_iff]
        by_cases hs : isStripped b = true
        · have hs2 := (isStripped_iff b).1 hs
          simp only [hs2, decide_True, if_true, Nat.sub_self]
          rw [replaceAllAux_zero_del, ih 0 (by simp)]
          simp [hs]
        · have hs2 : ¬ _ := fun h => hs ((isStripped_iff b).2 h)
          simp only [hs2, decide_False, Bool.false_eq_true, if_false, Nat.sub_self]
          rw [ih 0 (by simp)]
          simp [hs]
      · obtain ⟨hr, hcont⟩ := decode_high b rest (by omega)
        have hnm : ¬ ((DecodeRuneInString (b :: rest)).1 = 0
            ∨ (DecodeRuneInString (b :: rest)).1 = 8
            ∨ (DecodeRuneInString (b :: rest)).1 = 0xB
            ∨ (DecodeRuneInString (b :: rest)).1 = 0xC
            ∨ (0xE ≤ (DecodeRuneInString (b :: rest)).1
                ∧ (DecodeRuneInString (b :: rest)).1 ≤ 0x1F)) := by omega
        rw [class_matches_iff]
        simp only [hnm, decide_False, Bool.false_eq_true, if_false]
        rw [ih _ hcont]
        have hs : isStripped b = false := by
          rw [Bool.eq_false_iff]
          intro h
          have := (isStripped_iff b).1 h
          omega
        simp [hs]
    | succ k =>
      simp only [replaceAllAux, Bool.false_eq_true, if_false]
      have hb : 0x80 ≤ b.val := hk b (by simp)
      rw [ih k (fun x hx => hk x (by simp [hx]))]
      have hs : isStripped b = false := by
        rw [Bool.eq_false_iff]
        intro h
        have := (isStripped_iff b).1 h
        omega
      simp [hs]

theorem removeNonPrintable_eq (s : GoString) :
    removeNonPrintable s = (some (s.filter (fun b => !isStripped b)), none) := by
  simp only [removeNonPrintable, compile_nonPrintable, ReplaceAllStringEmpty]
  rw [replaceAllAux_eq_filter s 0 (by simp)]

/-- C2: for every input string `removeNonPrintable` succeeds (nil error) and
returns the input with exactly the bytes `0x00`, `0x08`, `0x0B`, `0x0C` and
`0x0E`..`0x1F` deleted; every other byte, in particular tab, newline, carriage
return, printable ASCII and every byte of multi-byte UTF-8, is kept in its
place in the original order. -/
theorem removeNonPrintable_deletes_exactly_listed_controls (s : GoString) :
    removeNonPrintable s = (some (s.filter (fun b => !isStripped b)), none)
    ∧ (∀ b : GoByte, isStripped b = true ↔
        (b.val = 0x00 ∨ b.val = 0x08 ∨ b.val = 0x0B ∨ b.val = 0x0C
          ∨ (0x0E ≤ b.val ∧ b.val ≤ 0x1F)))
    ∧ (∀ b : GoByte, (b.val = 0x09 ∨ b.val = 0x0A ∨ b.val = 0x0D ∨ 0x20 ≤ b.val) →
        isStripped b = false) := by
  refine ⟨removeNonPrintable_eq s, isStripped_iff, ?_⟩
  intro b hb
  rw [Bool.eq_false_iff]
  intro h
  have := (isStripped_iff b).1 h
  omega

/-- Instance of C2 at a text with a NUL, a tab, a unit separator, a two-byte
rune and a newline. -/
theorem removeNonPrintable_deletes_exactly_listed_controls_witness :
    removeNonPrintable [0x61, 0x00, 0x09, 0x1F, 0xC3, 0xA9, 0x0A]
      = (some [0x61, 0x09, 0xC3, 0xA9, 0x0A], none) :=
  (removeNonPrintable_deletes_exactly_listed_controls
    [0x61, 0x00, 0x09, 0x1F, 0xC3, 0xA9, 0x0A]).1

/-- C3: sanitisation is idempotent: the result of `removeNonPrintable` is
returned unchanged when `removeNonPrintable` is applied to it. -/
theorem removeNonPrintable_idempotent (s : GoString) :
    ∃ r : GoString, removeNonPrintable s = (some r, none)
      ∧ removeNonPrintable r = (some r, none) := by
  refine ⟨s.filter (fun b => !isStripped b), removeNonPrintable_eq s, ?_⟩
  rw [removeNonPrintable_eq, List.filter_filter]
  simp

/-- The function `extractLogs` returns a hit list and a nil error on every
input. -/
theorem extractLogs_returns_nil_error (s : GoString) :
    (∃ reg, regexpCompile nonPrintablePattern = .ok reg)
    ∧ (∃ r : GoString, removeNonPrintable s = (some r, none))
    ∧ (∃ hits, extractLogs s = .ok (some hits, none)) := by
  refine ⟨⟨_, compile_nonPrintable⟩, ⟨_, removeNonPrintable_eq s⟩, ?_⟩
  simp only [extractLogs, removeNonPrintable_eq]
  exact ⟨_, rfl⟩

/-- C10: the pattern of `removeNonPrintable` compiles, so for every input the
function returns a non-nil string and a nil error; `extractLogs` therefore
never takes its sanitisation-error branch and never dereferences a nil
string: it returns a hit list and a nil error. -/
theorem removeNonPrintable_never_fails (s : GoString) :
    (∃ reg, regexpCompile nonPrintablePattern = .ok reg)
    ∧ (∃ r : GoString, removeNonPrintable s = (some r, none))
    ∧ (∃ hits, extractLogs s = .ok (some hits, none)) :=
  extractLogs_returns_nil_error s

/-! ## Theorems: the query document -/

/-- C1: for every pair of strings the document built by `postQuery` is
`{"query": {"bool": {"must": L}}}` where `L` has exactly three elements, in
this order: a map whose only key is `query_string`, a map whose only key is
`match_phrase` (on `kubernetes.namespace_name`) and a map whose only key is
`match_phrase_prefix` (on `kubernetes.container_name`). -/
theorem queryBody_has_three_must_clauses (fabricNamespace podName : GoString) :
    ∃ c0 c1 c2 : GoVal,
      queryBody fabricNamespace podName
        = .map [(lit "query", .map [(lit "bool", .map [(lit "must", .slice [
            .map [(lit "query_string", c0)],
            .map [(lit "match_phrase", .map [(lit "kubernetes.namespace_name", c1)])],
            .map [(lit "match_phrase_prefix",
              .map [(lit "kubernetes.container_name", c2)])]])])])] :=
  ⟨_, _, _, rfl⟩

/-- C6: for every pair of strings, without validation, the document carries
`fabricNamespace` as `must[1].match_phrase["kubernetes.namespace_name"].query`
and `podName` as
`must[2].match_phrase_prefix["kubernetes.container_name"].query`, both
verbatim, and `must[0].query_string.query` is the same fixed expression for
all inputs. -/
theorem queryBody_embeds_inputs_verbatim (fabricNamespace podName : GoString) :
    (queryBody fabricNamespace podName).path
        [.key (lit "query"), .key (lit "bool"), .key (lit "must"), .idx 1,
          .key (lit "match_phrase"), .key (lit "kubernetes.namespace_name"),
          .key (lit "query")] = some (.str fabricNamespace)
    ∧ (queryBody fabricNamespace podName).path
        [.key (lit "query"), .key (lit "bool"), .key (lit "must"), .idx 2,
          .key (lit "match_phrase_prefix"), .key (lit "kubernetes.container_name"),
          .key (lit "query")] = some (.str podName)
    ∧ (queryBody fabricNamespace podName).path
        [.key (lit "query"), .key (lit "bool"), .key (lit "must"), .idx 0,
          .key (lit "query_string"), .key (lit "query")]
        = some (.str (lit
          "(\"ProcessProposal -> DEBU \" AND (Entry OR Exit)) OR NewCCCC OR generateDockerfile")) :=
  ⟨rfl, rfl, rfl⟩

/-! ## Theorems: `postQuery` -/

/-- The function `postQuery` returns either a response text and a nil error,
or no text and an error. -/
theorem postBody_res_iff_no_err (env : HTTPEnv) (url : GoString) (doc : GoVal) :
    ((postBody env url doc).err = none ↔ (postBody env url doc).res ≠ none) := by
  unfold postBody
  cases Marshal doc with
  | error e => simp
  | ok d =>
    simp only []
    by_cases hv : env.validURL url = true
    · simp only [hv, if_true]
      cases env.roundTrip _ <;> simp
    · simp [hv]

/-- C9: in the loop of `main`, a step enters `stopped` only from `querying`
and only when `postQuery` returned an error; when `postQuery` succeeds the
goroutine goes through `extracting`, `analyzing` and `sleeping` back to
`querying` of the next cycle, whatever `extractLogs` returns; and when
`postQuery` fails the goroutine stops and takes no further step, so the query
is not retried. -/
theorem poll_loop_stops_only_on_query_error {σ : Type} (f : Flags) (world : Nat → HTTPEnv)
    (analysisLogs : σ → Option (List HitContent) → σ) (w : Worker σ) :
    (∀ w1 : Worker σ, Worker.step f world analysisLogs w = some w1 → w1.phase = .stopped →
        w.phase = .querying ∧ (queryOf f world w.cycle).err ≠ none)
    ∧ (w.phase = .querying → (queryOf f world w.cycle).err = none →
        ∃ res logsArray,
          Worker.step f world analysisLogs w = some ⟨.extracting res, w.cycle, w.metrics⟩
          ∧ Worker.step f world analysisLogs ⟨.extracting res, w.cycle, w.metrics⟩
              = some ⟨.analyzing logsArray, w.cycle, w.metrics⟩
          ∧ Worker.step f world analysisLogs ⟨.analyzing logsArray, w.cycle, w.metrics⟩
              = some ⟨.sleeping, w.cycle, analysisLogs w.metrics logsArray⟩
          ∧ Worker.step f world analysisLogs
                ⟨.sleeping, w.cycle, analysisLogs w.metrics logsArray⟩
              = some ⟨.querying, w.cycle + 1, analysisLogs w.metrics logsArray⟩)
    ∧ (w.phase = .querying → (queryOf f world w.cycle).err ≠ none →
        Worker.step f world analysisLogs w = some ⟨.stopped, w.cycle, w.metrics⟩
        ∧ Worker.step f world analysisLogs ⟨.stopped, w.cycle, w.metrics⟩ = none) := by
  obtain ⟨phase, cycle, metrics⟩ := w
  refine ⟨?_, ?_, ?_⟩
  · intro w1 hstep hstop
    cases phase with
    | querying =>
      refine ⟨rfl, ?_⟩
      simp only [Worker.step] at hstep
      intro herr
      simp only [queryOf, postQuery] at hstep herr
      have hres := (postBody_res_iff_no_err (world cycle) (searchURL f)
        (queryBody f.fabricNamespace f.containerName)).1 herr
      rw [herr] at hstep
      cases hr : (postBody (world cycle) (searchURL f)
          (queryBody f.fabricNamespace f.containerName)).res with
      | none => exact hres hr
      | some res =>
        rw [hr] at hstep
        simp only [Option.some.injEq] at hstep
        rw [← hstep] at hstop
        cases hstop
    | extracting res =>
      simp only [Worker.step] at hstep
      split at hstep <;> simp only [Option.some.injEq] at hstep <;>
        (rw [← hstep] at hstop; cases hstop)
    | analyzing logs =>
      simp only [Worker.step, Option.some.injEq] at hstep
      rw [← hstep] at hstop; cases hstop
    | sleeping =>
      simp only [Worker.step, Option.some.injEq] at hstep
      rw [← hstep] at hstop; cases hstop
    | stopped => simp [Worker.step] at hstep
    | panicked => simp [Worker.step] at hstep
  · intro hq herr
    simp only at hq
    subst hq
    simp only [queryOf, postQuery] at herr
    have hres := (postBody_res_iff_no_err (world cycle) (searchURL f)
      (queryBody f.fabricNamespace f.containerName)).1 herr
    cases hr : (postBody (world cycle) (searchURL f)
        (queryBody f.fabricNamespace f.containerName)).res with
    | none => exact absurd hr hres
    | some res =>
      obtain ⟨_, _, hx⟩ := extractLogs_returns_nil_error res
      obtain ⟨hits, hx⟩ := hx
      refine ⟨res, some hits, ?_, ?_, rfl, rfl⟩
      · simp only [Worker.step, queryOf, postQuery]
        rw [herr, hr]
      · simp only [Worker.step, hx]
  · intro hq herr
    simp only at hq
    subst hq
    refine ⟨?_, rfl⟩
    simp only [Worker.step]
    simp only at herr
    cases he : (queryOf f world cycle).err with
    | none => exact absurd he herr
    | some e => rfl

/-- Instance of C9 on a network that answers the first query and fails the
second: the first cycle runs through all phases, the second stops for good. -/
theorem poll_loop_stops_only_on_query_error_witness :
    (∃ res logsArray,
        Worker.step {} oneCycleWorld countHits ⟨.querying, 0, 0⟩
          = some ⟨.extracting res, 0, 0⟩
        ∧ Worker.step {} oneCycleWorld countHits ⟨.extracting res, 0, 0⟩
            = some ⟨.analyzing logsArray, 0, 0⟩
        ∧ Worker.step {} oneCycleWorld countHits ⟨.analyzing logsArray, 0, 0⟩
            = some ⟨.sleeping, 0, countHits 0 logsArray⟩
        ∧ Worker.step {} oneCycleWorld countHits ⟨.sleeping, 0, countHits 0 logsArray⟩
            = some ⟨.querying, 0 + 1, countHits 0 logsArray⟩)
    ∧ (Worker.step {} oneCycleWorld countHits ⟨.querying, 1, 0⟩ = some ⟨.stopped, 1, 0⟩
        ∧ Worker.step {} oneCycleWorld countHits ⟨.stopped, 1, 0⟩ = none) :=
  ⟨(poll_loop_stops_only_on_query_error {} oneCycleWorld countHits ⟨.querying, 0, 0⟩).2.1
      rfl rfl,
   (poll_loop_stops_only_on_query_error {} oneCycleWorld countHits ⟨.querying, 1, 0⟩).2.2
      rfl (by decide)⟩

/-! ## Theorems: decoding -/

set_option maxRecDepth 100000 in
/-- C5, as the code has it: for a text that is not valid JSON and for a text
whose `hits` member has the wrong type, `json.Unmarshal` reports an error, and
`extractLogs` returns an empty hit list with a nil error. -/
theorem extractLogs_discards_decode_error :
    removeNonPrintable (lit "\x7b\"hits\":") = (some (lit "\x7b\"hits\":"), none)
    ∧ (Unmarshal (lit "\x7b\"hits\":") {}).2 = some .jsonSyntax
    ∧ extractLogs (lit "\x7b\"hits\":") = .ok (some [], none)
    ∧ removeNonPrintable (lit "\x7b\"hits\":7\x7d") = (some (lit "\x7b\"hits\":7\x7d"), none)
    ∧ (Unmarshal (lit "\x7b\"hits\":7\x7d") {}).2 = some .jsonUnmarshalType
    ∧ extractLogs (lit "\x7b\"hits\":7\x7d") = .ok (some [], none) :=
  ⟨rfl, rfl, rfl, rfl, rfl, rfl⟩

/-! ## Theorems: the library model on concrete inputs -/

theorem check_removeNonPrintable :
    removeNonPrintable (lit "a\x00b\tc\x1fd\n") = (some (lit "ab\tcd\n"), none) := rfl

theorem check_parseJSON_nested :
    parseJSON (lit "\x7b\"a\": [1, -2.5e3, true, null, \"x\\n\\u00e9\"], \"b\": \x7b\x7d\x7d")
      = some (.obj [(lit "a", .arr [.num (lit "1"), .num (lit "-2.5e3"), .bool true, .null,
          .str [0x78, 0x0A, 0xC3, 0xA9]]), (lit "b", .obj [])]) := rfl

theorem check_parseJSON_literals :
    parseJSON (lit "[true,false,null]") = some (.arr [.bool true, .bool false, .null])
    ∧ parseJSON (lit "12") = some (.num (lit "12"))
    ∧ parseJSON (lit " [ ] ") = some (.arr [])
    ∧ parseJSON (lit "\"\\ud83d\\ude00\"") = some (.str [0xF0, 0x9F, 0x98, 0x80]) :=
  ⟨rfl, rfl, rfl, rfl⟩

theorem check_parseJSON_rejects :
    parseJSON (lit "nul") = none ∧ parseJSON (lit "\x7b") = none ∧ parseJSON (lit "") = none
    ∧ parseJSON (lit "[1,]") = none ∧ parseJSON (lit "01") = none
    ∧ parseJSON (lit "\"a\tb\"") = none :=
  ⟨rfl, rfl, rfl, rfl, rfl, rfl⟩

set_option maxRecDepth 100000 in
theorem check_extractLogs_fold_and_overflow :
    (extractLogs (lit "\x7b\"took\":3,\"hits\":\x7b\"total\":2,\"max_score\":1.5,\"hits\":[\x7b\"_id\":\"a\",\"_score\":1e40\x7d,\x7b\"_ID\":\"b\",\"sort\":[12]\x7d]\x7d\x7d")).toOption.map
      (fun r => (r.1.map (fun hs => hs.map (fun h => (h.Id, h.Sort_))), r.2))
      = some (some [(lit "a", []), (lit "b", [12])], none) := by decide

theorem check_Unmarshal_type_errors :
    (Unmarshal (lit "\x7b\"took\":3.5,\"hits\":\x7b\"max_score\":1e40\x7d\x7d") {}).2
      = some .jsonUnmarshalType
    ∧ (Unmarshal (lit "\x7b\"took\":3,\"hits\":\x7b\"max_score\":1e38\x7d\x7d") {}).2 = none := by
  decide

set_option maxRecDepth 100000 in
theorem check_Marshal_queryBody :
    Marshal (queryBody (lit "fabric-net") (lit "peer"))
      = .ok (lit "\x7b\"query\":\x7b\"bool\":\x7b\"must\":[\x7b\"query_string\":\x7b\"query\":\"(\\\"ProcessProposal -\\u003e DEBU \\\" AND (Entry OR Exit)) OR NewCCCC OR generateDockerfile\"\x7d\x7d,\x7b\"match_phrase\":\x7b\"kubernetes.namespace_name\":\x7b\"query\":\"fabric-net\"\x7d\x7d\x7d,\x7b\"match_phrase_prefix\":\x7b\"kubernetes.container_name\":\x7b\"query\":\"peer\"\x7d\x7d\x7d]\x7d\x7d\x7d") :=
  rfl

theorem check_Marshal_escapes :
    Marshal (.map [(lit "b", .str [0xFF, 0x0A]), (lit "a", .nil)])
      = .ok (lit "\x7b\"a\":null,\"b\":\"\\ufffd\\n\"\x7d")
    ∧ Marshal (.str [0xE2, 0x80, 0xA8, 0xC3, 0xA9])
      = .ok ([0x22] ++ lit "\\u2028" ++ [0xC3, 0xA9, 0x22]) :=
  ⟨rfl, rfl⟩

end Hyperlook
